import Mathlib

/-!
# Verification of the mumdex plotting core (`x11plot.h`) and `randomize_order.cpp`

A shallow embedding of the range/zoom model, coordinate transforms, click
classification, radio (toggle-control) press/release protocol, the draw-time
view-history snapshot logic and the movie playback loop of `X11Graph`
(src/utility/x11plot.h), plus the line-shuffling program
`randomize_order.cpp`.  C++ `double` values are embedded as exact rationals
(`ℚ`); machine pixel coordinates as integers.
-/

namespace X11Plot

/-- One stored axis range: the triple `[low, high, width]` used by
`X11Graph::range`, `max_range` and `bounds` (`x11plot.h` uses
3-element vectors indexed 0/1/2). -/
structure AxisRange where
  low : ℚ
  high : ℚ
  width : ℚ
deriving DecidableEq, Repr

/-- A pair of per-axis values, indexed by the `bool y` axis selector the code
uses everywhere (`false` = x-axis, `true` = y-axis). -/
structure Axes (α : Type) where
  x : α
  y : α
deriving DecidableEq, Repr

/-- Read the component selected by the `bool y` index. -/
def Axes.get {α : Type} (a : Axes α) (y : Bool) : α :=
  if y then a.y else a.x

/-- Write the component selected by the `bool y` index. -/
def Axes.set {α : Type} (a : Axes α) (y : Bool) (v : α) : Axes α :=
  if y then { a with y := v } else { a with x := v }

/-- Modelled from the spec: `dne` (defined outside `src/`, used by
`x11plot.h`) is the double inequality test guarded against floating
round-off; with exact rationals it is plain inequality
(spec: "Equality is structural"). -/
def dne (a b : ℚ) : Bool := a != b

/-- The state of `X11Graph` relevant to the range/scale model:
current `range`, full-data `max_range`, per-axis `zoomed` flags, the pixel
`bounds` of the drawing region and the derived `scale` factors. -/
structure GraphState where
  range : Axes AxisRange
  maxRange : Axes AxisRange
  zoomed : Axes Bool
  bounds : Axes AxisRange
  scale : Axes ℚ
deriving DecidableEq, Repr

/-- Embeds `X11Graph::set_range` (x11plot.h:1847-1860): if `|high - low|` exceeds
`0.00000000001 * max_range[y][2]` install the bounds and recompute the width,
then update `zoomed[y]`; otherwise reset the whole `range` to `max_range`
and return early. -/
def set_range (s : GraphState) (y : Bool) (low high : ℚ) : GraphState :=
  if |high - low| > (1 / 10 ^ 11) * (s.maxRange.get y).width then
    { s with
      range := s.range.set y ⟨low, high, high - low⟩
      zoomed := s.zoomed.set y
        (dne low (s.maxRange.get y).low || dne high (s.maxRange.get y).high) }
  else
    { s with range := s.maxRange }

/-- Embeds `X11Graph::range_jump` (x11plot.h:1862-1864): translate both bounds of an
axis by `dist` through `set_range`. -/
def range_jump (s : GraphState) (y : Bool) (dist : ℚ) : GraphState :=
  set_range s y ((s.range.get y).low + dist) ((s.range.get y).high + dist)

/-- Embeds `X11Graph::in_range` (x11plot.h:1866-1869): inclusive bounds test of a
data point against the current `range`. -/
def in_range (s : GraphState) (x y : ℚ) : Prop :=
  x ≥ (s.range.get false).low ∧ x ≤ (s.range.get false).high ∧
  y ≥ (s.range.get true).low ∧ y ≤ (s.range.get true).high

instance (s : GraphState) (x y : ℚ) : Decidable (in_range s x y) := by
  unfold in_range; infer_instance

/-- The stored-width invariant of the spec: `range[axis][2] ==
range[axis][1] - range[axis][0]`. -/
def widthInvariant (r : AxisRange) : Prop := r.width = r.high - r.low

/-- A sequence of `set_range` calls `(axis, low, high)` applied in order. -/
def applyCalls (s : GraphState) (calls : List (Bool × ℚ × ℚ)) : GraphState :=
  calls.foldl (fun st c => set_range st c.1 c.2.1 c.2.2) s

theorem set_range_maxRange_eq (s : GraphState) (y : Bool) (low high : ℚ) :
    (set_range s y low high).maxRange = s.maxRange := by
  unfold set_range
  split <;> rfl

theorem set_range_widthInvariant (s : GraphState) (y : Bool) (low high : ℚ)
    (hmx : widthInvariant (s.maxRange.get false) ∧ widthInvariant (s.maxRange.get true))
    (hr : widthInvariant (s.range.get false) ∧ widthInvariant (s.range.get true)) :
    widthInvariant ((set_range s y low high).range.get false) ∧
      widthInvariant ((set_range s y low high).range.get true) := by
  unfold set_range
  split
  · cases y <;>
      simp only [Axes.get, Axes.set, if_false, if_true, Bool.false_eq_true] <;>
      exact ⟨by first | exact hr.1 | rfl, by first | exact hr.2 | rfl⟩
  · exact hmx

/-- C1: for every axis and every sequence of `set_range` calls, starting from
any state whose `max_range` and `range` satisfy the stored-width invariant
(as `get_range` establishes), after each call — hence after every prefix of
the sequence — `range[axis][2] = range[axis][1] - range[axis][0]` holds for
both axes. -/
theorem set_range_sequence_width_invariant (s : GraphState)
    (calls : List (Bool × ℚ × ℚ))
    (hmx : widthInvariant (s.maxRange.get false) ∧ widthInvariant (s.maxRange.get true))
    (hr : widthInvariant (s.range.get false) ∧ widthInvariant (s.range.get true)) :
    widthInvariant ((applyCalls s calls).range.get false) ∧
      widthInvariant ((applyCalls s calls).range.get true) := by
  induction calls generalizing s with
  | nil => exact hr
  | cons c rest ih =>
      have hmx' :
          widthInvariant ((set_range s c.1 c.2.1 c.2.2).maxRange.get false) ∧
            widthInvariant ((set_range s c.1 c.2.1 c.2.2).maxRange.get true) := by
        rw [set_range_maxRange_eq]; exact hmx
      exact ih _ hmx' (set_range_widthInvariant s c.1 c.2.1 c.2.2 hmx hr)

/-- Witness for C1 at a concrete state and call sequence. -/
theorem set_range_sequence_width_invariant_witness :
    widthInvariant ((applyCalls
      { range := ⟨⟨0, 10, 10⟩, ⟨0, 10, 10⟩⟩
        maxRange := ⟨⟨0, 10, 10⟩, ⟨0, 10, 10⟩⟩
        zoomed := ⟨false, false⟩
        bounds := ⟨⟨0, 100, 100⟩, ⟨0, 100, 100⟩⟩
        scale := ⟨10, 10⟩ }
      [(false, 2, 7), (true, 3, 3), (false, 1, 4)]).range.get false) ∧
    widthInvariant ((applyCalls
      { range := ⟨⟨0, 10, 10⟩, ⟨0, 10, 10⟩⟩
        maxRange := ⟨⟨0, 10, 10⟩, ⟨0, 10, 10⟩⟩
        zoomed := ⟨false, false⟩
        bounds := ⟨⟨0, 100, 100⟩, ⟨0, 100, 100⟩⟩
        scale := ⟨10, 10⟩ }
      [(false, 2, 7), (true, 3, 3), (false, 1, 4)]).range.get true) :=
  set_range_sequence_width_invariant _ _
    ⟨by norm_num [widthInvariant, Axes.get], by norm_num [widthInvariant, Axes.get]⟩
    ⟨by norm_num [widthInvariant, Axes.get], by norm_num [widthInvariant, Axes.get]⟩

/-- A concrete state whose y-axis is zoomed in while the x-axis is not:
`max_range = [0,10]` on both axes, `range = [0,10] × [2,4]`. -/
def stateZoomedY : GraphState :=
  { range := ⟨⟨0, 10, 10⟩, ⟨2, 4, 2⟩⟩
    maxRange := ⟨⟨0, 10, 10⟩, ⟨0, 10, 10⟩⟩
    zoomed := ⟨false, true⟩
    bounds := ⟨⟨0, 100, 100⟩, ⟨0, 100, 100⟩⟩
    scale := ⟨10, 50⟩ }

/-- C2 counterexample: a degenerate `set_range(x, 5, 5)` call does NOT leave
the other (y) axis unchanged — the code executes `range = max_range`,
resetting BOTH axes, so the zoomed y-axis range `[2,4]` becomes `[0,10]`. -/
theorem set_range_degenerate_changes_other_axis :
    (set_range stateZoomedY false 5 5).range.get true ≠
      stateZoomedY.range.get true := by
  unfold set_range
  rw [if_neg (by norm_num [stateZoomedY, Axes.get])]
  simp only [stateZoomedY, Axes.get, if_true]
  intro h
  rw [AxisRange.mk.injEq] at h
  norm_num at h

/-- C2 amended: a `set_range(axis, low, high)` call with `|high - low|` at
most `1e-11 * max_range[axis].width` resets the ENTIRE `range` (both axes)
to `max_range`, and leaves `max_range` and the `zoomed` flags untouched. -/
theorem set_range_degenerate_resets_to_max (s : GraphState) (y : Bool)
    (low high : ℚ)
    (hd : |high - low| ≤ (1 / 10 ^ 11) * (s.maxRange.get y).width) :
    (set_range s y low high).range = s.maxRange ∧
      (set_range s y low high).maxRange = s.maxRange ∧
      (set_range s y low high).zoomed = s.zoomed := by
  unfold set_range
  rw [if_neg (not_lt.mpr hd)]
  exact ⟨rfl, rfl, rfl⟩

/-- Witness for the amended C2 at a concrete degenerate call. -/
theorem set_range_degenerate_resets_to_max_witness :
    (set_range stateZoomedY false 5 5).range = stateZoomedY.maxRange ∧
      (set_range stateZoomedY false 5 5).maxRange = stateZoomedY.maxRange ∧
      (set_range stateZoomedY false 5 5).zoomed = stateZoomedY.zoomed :=
  set_range_degenerate_resets_to_max stateZoomedY false 5 5
    (by norm_num [stateZoomedY, Axes.get])

/-- One data series as `get_range` sees it: its visibility radio state
(`series_radios[s]`) and its per-axis value lists; a `none` entry models a
non-finite double, which `std::isfinite` filters out (x11plot.h:1833). -/
structure Series where
  visible : Bool
  xs : List (Option ℚ)
  ys : List (Option ℚ)
deriving DecidableEq, Repr

/-- The per-axis value list of a series (`(*data)[s][y]`). -/
def Series.vals (s : Series) (y : Bool) : List (Option ℚ) :=
  if y then s.ys else s.xs

/-- Modelled from the spec: `unset(1.0)` (defined outside `src/`) is the
initial scan sentinel, a positive value beyond every finite double
(finite doubles are below `1.8e308`). -/
def unsetQ : ℚ := 10 ^ 309

/-- Modelled from the spec: `nunset(1.0)` (defined outside `src/`) is the
negative sentinel below every finite double. -/
def nunsetQ : ℚ := -(10 ^ 309)

/-- The running-minimum update `if (range[y][0] > val) range[y][0] = val`
of `get_range` (x11plot.h:1834). -/
def lowStep (lo v : ℚ) : ℚ := if lo > v then v else lo

/-- The running-maximum update `if (range[y][1] < val) range[y][1] = val`
of `get_range` (x11plot.h:1835). -/
def highStep (hi v : ℚ) : ℚ := if hi < v then v else hi

/-- The finite values of the visible series on one axis, in scan order
(x11plot.h:1830-1836). -/
def axisFiniteVals (data : List Series) (y : Bool) : List ℚ :=
  (data.filter (·.visible)).flatMap (fun s => (s.vals y).filterMap id)

/-- The raw minimum `get_range` computes for one axis (before padding). -/
def rawLow (data : List Series) (y : Bool) : ℚ :=
  (axisFiniteVals data y).foldl lowStep unsetQ

/-- The raw maximum `get_range` computes for one axis (before padding). -/
def rawHigh (data : List Series) (y : Bool) : ℚ :=
  (axisFiniteVals data y).foldl highStep nunsetQ

/-- The padded axis range `get_range` installs (x11plot.h:1838-1841): pad the
raw `[min, max]` by 1% of the raw span on each side, then recompute width. -/
def getRangeAxis (data : List Series) (y : Bool) : AxisRange :=
  ⟨rawLow data y - (1 / 100) * (rawHigh data y - rawLow data y),
    rawHigh data y + (1 / 100) * (rawHigh data y - rawLow data y),
    (rawHigh data y + (1 / 100) * (rawHigh data y - rawLow data y)) -
      (rawLow data y - (1 / 100) * (rawHigh data y - rawLow data y))⟩

/-- Embeds `X11Graph::get_range()` with the default argument `a = 2`
(x11plot.h:1825-1845): recompute both axes from the visible series' finite
values, clear the `zoomed` flags and set `max_range` to the new range. -/
def get_range (s : GraphState) (data : List Series) : GraphState :=
  { s with
    range := ⟨getRangeAxis data false, getRangeAxis data true⟩
    maxRange := ⟨getRangeAxis data false, getRangeAxis data true⟩
    zoomed := ⟨false, false⟩ }

theorem foldl_lowStep_le_init (l : List ℚ) (a : ℚ) : l.foldl lowStep a ≤ a := by
  induction l generalizing a with
  | nil => exact le_refl a
  | cons x xs ih =>
      refine le_trans (ih (lowStep a x)) ?_
      unfold lowStep
      split
      · exact le_of_lt (by assumption)
      · exact le_refl a

theorem foldl_lowStep_le_mem (l : List ℚ) (a v : ℚ) (hv : v ∈ l) :
    l.foldl lowStep a ≤ v := by
  induction l generalizing a with
  | nil => cases hv
  | cons x xs ih =>
      rcases List.mem_cons.mp hv with h | h
      · subst h
        refine le_trans (foldl_lowStep_le_init xs (lowStep a v)) ?_
        unfold lowStep
        split
        · exact le_refl v
        · exact le_of_not_lt (by assumption)
      · exact ih (lowStep a x) h

theorem foldl_lowStep_mem_or (l : List ℚ) (a : ℚ) :
    l.foldl lowStep a = a ∨ l.foldl lowStep a ∈ l := by
  induction l generalizing a with
  | nil => exact Or.inl rfl
  | cons x xs ih =>
      rcases ih (lowStep a x) with h | h
      · rw [List.foldl_cons, h]
        unfold lowStep
        split
        · exact Or.inr (List.mem_cons_self x xs)
        · exact Or.inl rfl
      · exact Or.inr (List.mem_cons_of_mem x h)

theorem foldl_highStep_init_le (l : List ℚ) (a : ℚ) : a ≤ l.foldl highStep a := by
  induction l generalizing a with
  | nil => exact le_refl a
  | cons x xs ih =>
      refine le_trans ?_ (ih (highStep a x))
      unfold highStep
      split
      · exact le_of_lt (by assumption)
      · exact le_refl a

theorem foldl_highStep_mem_le (l : List ℚ) (a v : ℚ) (hv : v ∈ l) :
    v ≤ l.foldl highStep a := by
  induction l generalizing a with
  | nil => cases hv
  | cons x xs ih =>
      rcases List.mem_cons.mp hv with h | h
      · subst h
        refine le_trans ?_ (foldl_highStep_init_le xs (highStep a v))
        unfold highStep
        split
        · exact le_refl v
        · exact le_of_not_lt (by assumption)
      · exact ih (highStep a x) h

theorem foldl_highStep_mem_or (l : List ℚ) (a : ℚ) :
    l.foldl highStep a = a ∨ l.foldl highStep a ∈ l := by
  induction l generalizing a with
  | nil => exact Or.inl rfl
  | cons x xs ih =>
      rcases ih (highStep a x) with h | h
      · rw [List.foldl_cons, h]
        unfold highStep
        split
        · exact Or.inr (List.mem_cons_self x xs)
        · exact Or.inl rfl
      · exact Or.inr (List.mem_cons_of_mem x h)

theorem get_range_axis_eq (s : GraphState) (data : List Series) (y : Bool) :
    (get_range s data).range.get y = getRangeAxis data y := by
  cases y <;> rfl

/-- C3: after `get_range()` each axis's range is the minimum/maximum of the
visible series' finite values padded by 1% of the raw span on each side
(`rawLow`/`rawHigh` are exactly that minimum and maximum), and `in_range`
holds for every finite data point of a visible series — in particular for
the extrema. -/
theorem get_range_pads_and_contains (s : GraphState) (data : List Series)
    (px py : ℚ)
    (hx : px ∈ axisFiniteVals data false) (hy : py ∈ axisFiniteVals data true)
    (hbx : ∀ v ∈ axisFiniteVals data false, |v| ≤ 10 ^ 308)
    (hby : ∀ v ∈ axisFiniteVals data true, |v| ≤ 10 ^ 308) :
    (rawLow data false ∈ axisFiniteVals data false ∧
       ∀ v ∈ axisFiniteVals data false, rawLow data false ≤ v) ∧
    (rawHigh data false ∈ axisFiniteVals data false ∧
       ∀ v ∈ axisFiniteVals data false, v ≤ rawHigh data false) ∧
    (rawLow data true ∈ axisFiniteVals data true ∧
       ∀ v ∈ axisFiniteVals data true, rawLow data true ≤ v) ∧
    (rawHigh data true ∈ axisFiniteVals data true ∧
       ∀ v ∈ axisFiniteVals data true, v ≤ rawHigh data true) ∧
    (∀ y : Bool, (get_range s data).range.get y = getRangeAxis data y ∧
       (get_range s data).maxRange.get y = getRangeAxis data y) ∧
    in_range (get_range s data) px py := by
  have lowMem : ∀ (yy : Bool) (v : ℚ), v ∈ axisFiniteVals data yy →
      (∀ w ∈ axisFiniteVals data yy, |w| ≤ 10 ^ 308) →
      rawLow data yy ∈ axisFiniteVals data yy := by
    intro yy v hv hb
    rcases foldl_lowStep_mem_or (axisFiniteVals data yy) unsetQ with h | h
    · exfalso
      have h1 : rawLow data yy ≤ v := foldl_lowStep_le_mem _ _ _ hv
      have h2 : v ≤ 10 ^ 308 := le_of_abs_le (hb v hv)
      have h3 : (10 ^ 308 : ℚ) < unsetQ := by norm_num [unsetQ]
      rw [rawLow] at h1
      rw [h] at h1
      linarith
    · exact h
  have highMem : ∀ (yy : Bool) (v : ℚ), v ∈ axisFiniteVals data yy →
      (∀ w ∈ axisFiniteVals data yy, |w| ≤ 10 ^ 308) →
      rawHigh data yy ∈ axisFiniteVals data yy := by
    intro yy v hv hb
    rcases foldl_highStep_mem_or (axisFiniteVals data yy) nunsetQ with h | h
    · exfalso
      have h1 : v ≤ rawHigh data yy := foldl_highStep_mem_le _ _ _ hv
      have h2 : -(10 ^ 308 : ℚ) ≤ v := neg_le_of_abs_le (hb v hv)
      have h3 : nunsetQ < -(10 ^ 308 : ℚ) := by norm_num [nunsetQ]
      rw [rawHigh] at h1
      rw [h] at h1
      linarith
    · exact h
  have hxlo : rawLow data false ≤ px := foldl_lowStep_le_mem _ _ _ hx
  have hxhi : px ≤ rawHigh data false := foldl_highStep_mem_le _ _ _ hx
  have hylo : rawLow data true ≤ py := foldl_lowStep_le_mem _ _ _ hy
  have hyhi : py ≤ rawHigh data true := foldl_highStep_mem_le _ _ _ hy
  refine ⟨⟨lowMem false px hx hbx, fun v hv => foldl_lowStep_le_mem _ _ _ hv⟩,
    ⟨highMem false px hx hbx, fun v hv => foldl_highStep_mem_le _ _ _ hv⟩,
    ⟨lowMem true py hy hby, fun v hv => foldl_lowStep_le_mem _ _ _ hv⟩,
    ⟨highMem true py hy hby, fun v hv => foldl_highStep_mem_le _ _ _ hv⟩,
    fun y => ⟨get_range_axis_eq s data y, by cases y <;> rfl⟩, ?_⟩
  unfold in_range
  rw [get_range_axis_eq, get_range_axis_eq]
  unfold getRangeAxis
  refine ⟨?_, ?_, ?_, ?_⟩ <;> simp only [] <;> linarith

/-- A one-point data set used as a concrete witness. -/
def seriesOnePoint : List Series := [⟨true, [some 2], [some 4]⟩]

/-- Witness for C3 at a concrete one-point visible series. -/
theorem get_range_pads_and_contains_witness :
    (rawLow seriesOnePoint false ∈ axisFiniteVals seriesOnePoint false ∧
       ∀ v ∈ axisFiniteVals seriesOnePoint false, rawLow seriesOnePoint false ≤ v) ∧
    (rawHigh seriesOnePoint false ∈ axisFiniteVals seriesOnePoint false ∧
       ∀ v ∈ axisFiniteVals seriesOnePoint false, v ≤ rawHigh seriesOnePoint false) ∧
    (rawLow seriesOnePoint true ∈ axisFiniteVals seriesOnePoint true ∧
       ∀ v ∈ axisFiniteVals seriesOnePoint true, rawLow seriesOnePoint true ≤ v) ∧
    (rawHigh seriesOnePoint true ∈ axisFiniteVals seriesOnePoint true ∧
       ∀ v ∈ axisFiniteVals seriesOnePoint true, v ≤ rawHigh seriesOnePoint true) ∧
    (∀ y : Bool,
       (get_range stateZoomedY seriesOnePoint).range.get y = getRangeAxis seriesOnePoint y ∧
       (get_range stateZoomedY seriesOnePoint).maxRange.get y = getRangeAxis seriesOnePoint y) ∧
    in_range (get_range stateZoomedY seriesOnePoint) 2 4 :=
  get_range_pads_and_contains stateZoomedY seriesOnePoint 2 4
    (by simp [axisFiniteVals, seriesOnePoint, Series.vals])
    (by simp [axisFiniteVals, seriesOnePoint, Series.vals])
    (by intro v hv
        simp [axisFiniteVals, seriesOnePoint, Series.vals] at hv
        subst hv
        norm_num)
    (by intro v hv
        simp [axisFiniteVals, seriesOnePoint, Series.vals] at hv
        subst hv
        norm_num)

/-- Reading back the axis just written. -/
theorem Axes.get_set_same {α : Type} (a : Axes α) (y : Bool) (v : α) :
    (a.set y v).get y = v := by
  cases y <;> rfl

/-- The C++ `double`-to-`int` conversion truncates toward zero; `X11Graph::coord`
returns `int`. -/
def ratTrunc (q : ℚ) : ℤ := if 0 ≤ q then ⌊q⌋ else ⌈q⌉

/-- The real-valued pixel coordinate of a data value,
`X11Graph::dcoord` (x11plot.h:1902-1905). -/
def dcoord (s : GraphState) (y : Bool) (val : ℚ) : ℚ :=
  if y then (s.bounds.get true).high - (val - (s.range.get true).low) * s.scale.get true
  else (s.bounds.get false).low + (val - (s.range.get false).low) * s.scale.get false

/-- Embeds `X11Graph::coord` (x11plot.h:1898-1901): the same expression returned as
`int` (truncated). -/
def coord (s : GraphState) (y : Bool) (val : ℚ) : ℤ := ratTrunc (dcoord s y val)

/-- Embeds `X11Graph::icoord` (x11plot.h:1926-1929): window-to-data transform. -/
def icoord (s : GraphState) (y : Bool) (val : ℚ) : ℚ :=
  if y then ((s.bounds.get true).high - val) / s.scale.get true + (s.range.get true).low
  else (val - (s.bounds.get false).low) / s.scale.get false + (s.range.get false).low

/-- C5: for a pixel point strictly inside the plot bounds, with the scale
factor derived (as `prepare` does) from a positive-width range and
positive-extent bounds, `coord (icoord p)` is within 1 pixel of `p`
(it is in fact exactly `p`). -/
theorem coord_icoord_roundtrip (s : GraphState) (y : Bool) (p : ℤ)
    (hs : s.scale.get y = (s.bounds.get y).width / (s.range.get y).width)
    (hbw : 0 < (s.bounds.get y).width) (hrw : 0 < (s.range.get y).width)
    (hlo : (s.bounds.get y).low < (p : ℚ)) (hhi : (p : ℚ) < (s.bounds.get y).high) :
    (coord s y (icoord s y (p : ℚ)) - p).natAbs ≤ 1 := by
  have hsp : (0 : ℚ) < s.scale.get y := by
    rw [hs]
    exact div_pos hbw hrw
  have hsne : s.scale.get y ≠ 0 := ne_of_gt hsp
  have hdc : dcoord s y (icoord s y (p : ℚ)) = (p : ℚ) := by
    unfold dcoord icoord
    cases y <;> simp only [Bool.false_eq_true, if_false, if_true] <;>
      field_simp <;> ring
  have htr : ratTrunc ((p : ℚ)) = p := by
    unfold ratTrunc
    split
    · exact Int.floor_intCast p
    · exact Int.ceil_intCast p
  rw [coord, hdc, htr]
  simp

/-- A concrete state for the C5 witness: `bounds = [0,100]`,
`range = [0,10]`, `scale = 10 = 100 / 10`. -/
def stateRound : GraphState :=
  { range := ⟨⟨0, 10, 10⟩, ⟨0, 10, 10⟩⟩
    maxRange := ⟨⟨0, 10, 10⟩, ⟨0, 10, 10⟩⟩
    zoomed := ⟨false, false⟩
    bounds := ⟨⟨0, 100, 100⟩, ⟨0, 100, 100⟩⟩
    scale := ⟨10, 10⟩ }

/-- Witness for C5 at the pixel 50 on the x-axis. -/
theorem coord_icoord_roundtrip_witness :
    (coord stateRound false (icoord stateRound false ((50 : ℤ) : ℚ)) - 50).natAbs ≤ 1 :=
  coord_icoord_roundtrip stateRound false 50
    (by norm_num [stateRound, Axes.get])
    (by norm_num [stateRound, Axes.get])
    (by norm_num [stateRound, Axes.get])
    (by norm_num [stateRound, Axes.get])
    (by norm_num [stateRound, Axes.get])

/-- The zoom/center click-only update for one affected axis
(x11plot.h:2277-2281): `half = 0.5 * range[y][2] * zoom`,
`mid = icoord(y, click[y])`, then
`set_range(y, max(max_range[y][0], mid - half), min(max_range[y][1], mid + half))`. -/
def click_zoom (s : GraphState) (y : Bool) (clickPix : ℚ) (zoom : ℚ) : GraphState :=
  set_range s y
    (max ((s.maxRange.get y).low)
      (icoord s y clickPix - (1 / 2) * (s.range.get y).width * zoom))
    (min ((s.maxRange.get y).high)
      (icoord s y clickPix + (1 / 2) * (s.range.get y).width * zoom))

/-- C4: (a) for any click-zoom with any factor, the resulting bounds of the
affected axis never exceed `max_range`; (b) for the zoom-class out-click
(factor 10), away from the clamp and with a non-negligible positive prior
width, the new range is exactly `[mid - half, mid + half]` with
`half = 0.5 * old width * 10`: its width is 10 times the prior width, and it
is centered on the clicked data coordinate `mid = icoord(click)`. -/
theorem zoom_click_spec :
    (∀ (s : GraphState) (y : Bool) (px zoom : ℚ),
       (s.maxRange.get y).low ≤ ((click_zoom s y px zoom).range.get y).low ∧
       ((click_zoom s y px zoom).range.get y).high ≤ (s.maxRange.get y).high) ∧
    (∀ (s : GraphState) (y : Bool) (px : ℚ),
       0 < (s.range.get y).width →
       (s.maxRange.get y).low ≤ icoord s y px - (1 / 2) * (s.range.get y).width * 10 →
       icoord s y px + (1 / 2) * (s.range.get y).width * 10 ≤ (s.maxRange.get y).high →
       (1 / 10 ^ 11) * (s.maxRange.get y).width < 10 * (s.range.get y).width →
       (click_zoom s y px 10).range.get y =
         ⟨icoord s y px - (1 / 2) * (s.range.get y).width * 10,
          icoord s y px + (1 / 2) * (s.range.get y).width * 10,
          (icoord s y px + (1 / 2) * (s.range.get y).width * 10) -
            (icoord s y px - (1 / 2) * (s.range.get y).width * 10)⟩ ∧
       ((click_zoom s y px 10).range.get y).width = 10 * (s.range.get y).width ∧
       (((click_zoom s y px 10).range.get y).low +
          ((click_zoom s y px 10).range.get y).high) / 2 = icoord s y px) := by
  constructor
  · intro s y px zoom
    unfold click_zoom set_range
    split
    · simp only [Axes.get_set_same]
      exact ⟨le_max_left _ _, min_le_left _ _⟩
    · cases y <;> exact ⟨le_refl _, le_refl _⟩
  · intro s y px hw h1 h2 h3
    have hmax : max ((s.maxRange.get y).low)
        (icoord s y px - (1 / 2) * (s.range.get y).width * 10) =
        icoord s y px - (1 / 2) * (s.range.get y).width * 10 := max_eq_right h1
    have hmin : min ((s.maxRange.get y).high)
        (icoord s y px + (1 / 2) * (s.range.get y).width * 10) =
        icoord s y px + (1 / 2) * (s.range.get y).width * 10 := min_eq_right h2
    have hcond : |(icoord s y px + (1 / 2) * (s.range.get y).width * 10) -
        (icoord s y px - (1 / 2) * (s.range.get y).width * 10)| >
        (1 / 10 ^ 11) * (s.maxRange.get y).width := by
      have heq : (icoord s y px + (1 / 2) * (s.range.get y).width * 10) -
          (icoord s y px - (1 / 2) * (s.range.get y).width * 10) =
          10 * (s.range.get y).width := by ring
      rw [heq, abs_of_pos (by linarith)]
      exact h3
    have hres : (click_zoom s y px 10).range.get y =
        ⟨icoord s y px - (1 / 2) * (s.range.get y).width * 10,
         icoord s y px + (1 / 2) * (s.range.get y).width * 10,
         (icoord s y px + (1 / 2) * (s.range.get y).width * 10) -
           (icoord s y px - (1 / 2) * (s.range.get y).width * 10)⟩ := by
      unfold click_zoom set_range
      rw [hmax, hmin, if_pos hcond]
      simp only [Axes.get_set_same]
    refine ⟨hres, ?_, ?_⟩
    · rw [hres]
      ring
    · rw [hres]
      simp only []
      ring

/-- A concrete state for the C4 witness: `max_range = [0,100]`,
prior `range = [3,4]` (width 1), identity pixel scale. -/
def stateZoomW : GraphState :=
  { range := ⟨⟨3, 4, 1⟩, ⟨3, 4, 1⟩⟩
    maxRange := ⟨⟨0, 100, 100⟩, ⟨0, 100, 100⟩⟩
    zoomed := ⟨true, true⟩
    bounds := ⟨⟨0, 100, 100⟩, ⟨0, 100, 100⟩⟩
    scale := ⟨1, 1⟩ }

/-- Witness for C4: clamping at a concrete call, and the exact 10x-width
centered result at pixel 47 (data coordinate 50). -/
theorem zoom_click_spec_witness :
    ((stateZoomW.maxRange.get false).low ≤
       ((click_zoom stateZoomW false 47 10).range.get false).low ∧
     ((click_zoom stateZoomW false 47 10).range.get false).high ≤
       (stateZoomW.maxRange.get false).high) ∧
    ((click_zoom stateZoomW false 47 10).range.get false).width =
       10 * (stateZoomW.range.get false).width ∧
    (((click_zoom stateZoomW false 47 10).range.get false).low +
       ((click_zoom stateZoomW false 47 10).range.get false).high) / 2 =
      icoord stateZoomW false 47 :=
  ⟨zoom_click_spec.1 stateZoomW false 47 10,
   (zoom_click_spec.2 stateZoomW false 47
      (by norm_num [stateZoomW, Axes.get])
      (by norm_num [stateZoomW, Axes.get, icoord])
      (by norm_num [stateZoomW, Axes.get, icoord])
      (by norm_num [stateZoomW, Axes.get])).2⟩

/-- The X11 constant `Button1`. -/
def Button1 : ℕ := 1

/-- The X11 constant `Button2`. -/
def Button2 : ℕ := 2

/-- The X11 constant `Button3`. -/
def Button3 : ℕ := 3

/-- The X11 constant `ShiftMask` = `1 << 0`. -/
def ShiftMask : ℕ := 1

/-- The X11 constant `ControlMask` = `1 << 2`. -/
def ControlMask : ℕ := 4

/-- Embeds `Click::operator=` (x11plot.h:897-910): classify a button event from its
button number and modifier-state bitmask into the stored `value`
(0 = none, 1 = center-class, 2 = scroll-class, 3 = zoom-class). -/
def clickValue (button : ℕ) (state : ℕ) : ℕ :=
  if button = Button2 ∨ state &&& ShiftMask ≠ 0 then 2
  else if button = Button3 ∨ state &&& ControlMask ≠ 0 then 3
  else if button = Button1 then 1
  else 0

/-- The classification rule as the spec words it, over abstract predicates:
secondary button or Shift gives scroll-class; tertiary button or Control
gives zoom-class; the primary button gives center-class only when no such
modifier takes precedence; anything else gives none. -/
def clickSpecRule (primary secondary tertiary shift control : Bool) : ℕ :=
  if secondary || shift then 2
  else if tertiary || control then 3
  else if primary then 1
  else 0

/-- C6: for every button number and modifier bitmask, the code's `Click`
classification agrees with the spec's fixed rule, with Shift read from
bit 0 and Control from bit 2 of the modifier state, and the modifier tests
taking precedence over the primary button. -/
theorem click_value_matches_rule (button st : ℕ) :
    clickValue button st =
      clickSpecRule (decide (button = Button1)) (decide (button = Button2))
        (decide (button = Button3)) (st.testBit 0) (st.testBit 2) := by
  have hshift : (st &&& ShiftMask ≠ 0) ↔ st.testBit 0 = true := by
    rw [ShiftMask, Nat.and_one_is_mod, Nat.testBit_zero]
    simp only [decide_eq_true_eq]
    omega
  have hctrl : (st &&& ControlMask ≠ 0) ↔ st.testBit 2 = true := by
    have h4 := Nat.and_two_pow st 2
    norm_num at h4
    rw [ControlMask, h4]
    cases h : st.testBit 2 <;> simp
  unfold clickValue clickSpecRule
  by_cases h2 : button = Button2 <;> by_cases hs : st.testBit 0 = true <;>
    by_cases h3 : button = Button3 <;> by_cases hc : st.testBit 2 = true <;>
    by_cases h1 : button = Button1 <;>
    simp_all [Button1, Button2, Button3]

/-- The toggled/swallow state of a `Radio` toggle control
(x11plot.h:872-875). -/
structure RadioState where
  togglable : Bool
  toggled : Bool
  skip_release : Bool
deriving DecidableEq, Repr

/-- Embeds `Radio::press` (x11plot.h:803-815), with the visibility predicate and
the hit test evaluated at the call: returns the new state, the returned
hit result, and whether the press action fired. -/
def RadioState.press (r : RadioState) (visible contains : Bool) :
    RadioState × Bool × Bool :=
  if !visible then ({ r with skip_release := true }, contains, false)
  else if contains then ({ r with toggled := !r.toggled }, true, true)
  else (r, false, false)

/-- Embeds `Radio::release` (x11plot.h:818-832): returns the new state, the returned
hit result, and whether the release action fired. -/
def RadioState.release (r : RadioState) (contains : Bool) :
    RadioState × Bool × Bool :=
  if r.skip_release then ({ r with skip_release := false }, contains, false)
  else if contains then
    ({ r with toggled := if r.togglable then r.toggled else !r.toggled }, true, true)
  else (r, false, false)

/-- C7: pressing a hidden radio records a swallow and returns the hit test;
the next release consumes the swallow, returns the hit test, flips nothing
and fires no action; after it the state is the original with the swallow
cleared, so a subsequent release behaves normally again. -/
theorem radio_hidden_press_swallows_release (r : RadioState) (c1 c2 c3 : Bool) :
    (RadioState.press r false c1).1.skip_release = true ∧
    (RadioState.press r false c1).2 = (c1, false) ∧
    (RadioState.press r false c1).1.toggled = r.toggled ∧
    RadioState.release (RadioState.press r false c1).1 c2 =
      ({ r with skip_release := false }, c2, false) ∧
    RadioState.release (RadioState.release (RadioState.press r false c1).1 c2).1 c3 =
      RadioState.release { r with skip_release := false } c3 := by
  refine ⟨rfl, rfl, rfl, rfl, rfl⟩

/-- Embeds `SavedConfig` (x11plot.h:1256-1292): the structural view snapshot stored
in the history. -/
structure SavedConfig where
  arc_radius : ℚ
  arc_width : ℚ
  line_width : ℤ
  line_type : ℤ
  series_order : List ℕ
  range : Axes AxisRange
  maxRange : Axes AxisRange
  zoomed : Axes Bool
  drawn : Bool
  radio_states : List Bool
deriving DecidableEq, Repr

/-- Embeds `SavedConfig::operator!=` (x11plot.h:1265-1276): field-wise structural
inequality (`dne` on the double fields, `!=` on the rest). -/
def SavedConfig.ne (l r : SavedConfig) : Bool :=
  dne l.arc_radius r.arc_radius || dne l.arc_width r.arc_width ||
  decide (l.line_width ≠ r.line_width) || decide (l.line_type ≠ r.line_type) ||
  decide (l.series_order ≠ r.series_order) || decide (l.range ≠ r.range) ||
  decide (l.maxRange ≠ r.maxRange) || decide (l.zoomed ≠ r.zoomed) ||
  decide (l.drawn ≠ r.drawn) || decide (l.radio_states ≠ r.radio_states)

/-- The `X11Graph` state that the end of `X11Graph::draw` touches: its
inherited `SavedConfig` fields, the tracked radios' toggled states
(`saved_radios`), the history (`saved_config`) and the `small_move` flag. -/
structure GraphDraw where
  config : SavedConfig
  savedRadios : List Bool
  savedConfigs : List SavedConfig
  smallMove : Bool
deriving DecidableEq, Repr

/-- Embeds `X11Graph::current_config()` (x11plot.h:2826-2833) as evaluated at the
end of `draw`, when `drawn` has just been set to `true`: a copy of the
inherited `SavedConfig` with `radio_states` rebuilt from `saved_radios`. -/
def drawnConfig (g : GraphDraw) : SavedConfig :=
  { g.config with drawn := true, radio_states := g.savedRadios }

/-- The end of `X11Graph::draw` (x11plot.h:2439-2446): set `drawn = true`;
then, unless this was a small move, snapshot the current configuration and
append it to the history if the history is empty or the snapshot differs
from the most recent entry (`save_config` is `push_back`,
x11plot.h:2849-2851). -/
def drawStep (g : GraphDraw) : GraphDraw :=
  if g.smallMove then { g with config := { g.config with drawn := true } }
  else if g.savedConfigs = [] ∨
      SavedConfig.ne (drawnConfig g) (g.savedConfigs.getLastD (drawnConfig g)) = true then
    { g with
      config := { g.config with drawn := true }
      savedConfigs := g.savedConfigs ++ [drawnConfig g] }
  else { g with config := { g.config with drawn := true } }

theorem SavedConfig.ne_self (c : SavedConfig) : SavedConfig.ne c c = false := by
  simp [SavedConfig.ne, dne]

theorem getLastD_append_singleton {α : Type} (l : List α) (c d : α) :
    (l ++ [c]).getLastD d = c := by
  induction l generalizing d with
  | nil => rfl
  | cons x xs ih =>
      rw [List.cons_append, List.getLastD_cons]
      exact ih x

theorem drawnConfig_drawStep (g : GraphDraw) :
    drawnConfig (drawStep g) = drawnConfig g := by
  unfold drawStep
  split
  · rfl
  · split <;> rfl

/-- C8: running the draw path twice with no intervening state change appends
at most one snapshot to the view history, and the second run appends
nothing: a snapshot is appended only when it differs (via the structural
`SavedConfig` inequality) from the most recent entry. -/
theorem drawStep_smallMove (g : GraphDraw) : (drawStep g).smallMove = g.smallMove := by
  unfold drawStep
  split
  · rfl
  · split <;> rfl

theorem drawStep_of_smallMove (g : GraphDraw) (h : g.smallMove = true) :
    drawStep g = { g with config := { g.config with drawn := true } } := by
  unfold drawStep
  rw [if_pos h]

theorem drawStep_of_no_push (g : GraphDraw) (h : g.smallMove = false)
    (hc : ¬ (g.savedConfigs = [] ∨
      SavedConfig.ne (drawnConfig g) (g.savedConfigs.getLastD (drawnConfig g)) = true)) :
    drawStep g = { g with config := { g.config with drawn := true } } := by
  unfold drawStep
  rw [if_neg (by rw [h]; exact Bool.false_ne_true), if_neg hc]

theorem drawStep_of_push (g : GraphDraw) (h : g.smallMove = false)
    (hc : g.savedConfigs = [] ∨
      SavedConfig.ne (drawnConfig g) (g.savedConfigs.getLastD (drawnConfig g)) = true) :
    drawStep g =
      { g with
        config := { g.config with drawn := true }
        savedConfigs := g.savedConfigs ++ [drawnConfig g] } := by
  unfold drawStep
  rw [if_neg (by rw [h]; exact Bool.false_ne_true), if_pos hc]

/-- C8: running the draw path twice with no intervening state change appends
at most one snapshot to the view history, and the second run appends
nothing: a snapshot is appended only when it differs (via the structural
`SavedConfig` inequality) from the most recent entry. -/
theorem draw_history_idempotent (g : GraphDraw) :
    (drawStep (drawStep g)).savedConfigs = (drawStep g).savedConfigs ∧
    (drawStep (drawStep g)).savedConfigs.length ≤ g.savedConfigs.length + 1 := by
  by_cases hm : g.smallMove = true
  · have h1 := drawStep_of_smallMove g hm
    have h2 := drawStep_of_smallMove (drawStep g) (by rw [drawStep_smallMove]; exact hm)
    rw [h2, h1]
    exact ⟨rfl, Nat.le_succ _⟩
  · have hm' : g.smallMove = false := by simpa using hm
    by_cases hp : g.savedConfigs = [] ∨
        SavedConfig.ne (drawnConfig g) (g.savedConfigs.getLastD (drawnConfig g)) = true
    · have h1 := drawStep_of_push g hm' hp
      have hsc : (drawStep g).savedConfigs = g.savedConfigs ++ [drawnConfig g] := by
        rw [h1]
      have hcond2 : ¬ ((drawStep g).savedConfigs = [] ∨
          SavedConfig.ne (drawnConfig (drawStep g))
            ((drawStep g).savedConfigs.getLastD (drawnConfig (drawStep g))) = true) := by
        rw [hsc, drawnConfig_drawStep, getLastD_append_singleton, SavedConfig.ne_self]
        simp
      have h2 := drawStep_of_no_push (drawStep g)
        (by rw [drawStep_smallMove]; exact hm') hcond2
      constructor
      · rw [h2]
      · rw [h2]
        show (drawStep g).savedConfigs.length ≤ g.savedConfigs.length + 1
        rw [hsc]
        simp
    · have h1 := drawStep_of_no_push g hm' hp
      have hsc : (drawStep g).savedConfigs = g.savedConfigs := by rw [h1]
      have hcond2 : ¬ ((drawStep g).savedConfigs = [] ∨
          SavedConfig.ne (drawnConfig (drawStep g))
            ((drawStep g).savedConfigs.getLastD (drawnConfig (drawStep g))) = true) := by
        rw [hsc, drawnConfig_drawStep]
        exact hp
      have h2 := drawStep_of_no_push (drawStep g)
        (by rw [drawStep_smallMove]; exact hm') hcond2
      constructor
      · rw [h2]
      · rw [h2]
        show (drawStep g).savedConfigs.length ≤ g.savedConfigs.length + 1
        rw [hsc]
        exact Nat.le_succ _

/-- The observable inputs of one iteration of the `X11Graph::movie` loop
(x11plot.h:2696-2724): the hit results of the movie radio's `release` for
each press event polled this frame, whether the frame is a catch-up frame
(`time > frame_time`, which skips the movement), and the elapsed seconds
used for the scroll movement. -/
structure FrameInput where
  presses : List Bool
  catchUp : Bool
  seconds : ℚ
deriving DecidableEq, Repr

/-- How one movie-loop iteration ends. -/
inductive MovieOutcome where
  | running : MovieOutcome
  | stoppedByRelease : MovieOutcome
  | stoppedAtBoundary : MovieOutcome
deriving DecidableEq, Repr

/-- The strict-interior test of the movie loop (x11plot.h:2717):
`range[0][0] > max_range[0][0] && range[0][1] < max_range[0][1]`. -/
def movieInterior (s : GraphState) : Prop :=
  (s.range.get false).low > (s.maxRange.get false).low ∧
  (s.range.get false).high < (s.maxRange.get false).high

instance (s : GraphState) : Decidable (movieInterior s) := by
  unfold movieInterior
  infer_instance

/-- The scroll movement of one frame (x11plot.h:2712-2715):
`movement = page_rate * seconds * range[0][2]` with `page_rate = 0.35`,
applied through `range_jump(0, (right ? 1 : -1) * movement)`. -/
def movieMove (right : Bool) (inp : FrameInput) (s : GraphState) : GraphState :=
  range_jump s false
    ((if right then (1 : ℚ) else -1) * ((35 / 100) * inp.seconds * (s.range.get false).width))

/-- One iteration of the `for (frame...)` loop of `X11Graph::movie`
(x11plot.h:2696-2724): poll pending presses — if the movie radio's release
fires, stop; on a catch-up frame skip the movement; otherwise scroll via
`range_jump` and stop if the range leaves the strict interior of
`max_range`. -/
def movieFrame (right : Bool) (inp : FrameInput) (s : GraphState) :
    MovieOutcome × GraphState :=
  if inp.presses.any id = true then (.stoppedByRelease, s)
  else if inp.catchUp = true then (.running, s)
  else if movieInterior (movieMove right inp s) then (.running, movieMove right inp s)
  else (.stoppedAtBoundary, movieMove right inp s)

/-- The movie loop run over a finite list of frame inputs; `running` means
the loop is still going after the supplied frames. -/
def runMovie (right : Bool) (inps : List FrameInput) (s : GraphState) :
    MovieOutcome × GraphState :=
  match inps with
  | [] => (.running, s)
  | inp :: rest =>
    match movieFrame right inp s with
    | (.running, s') => runMovie right rest s'
    | out => out

/-- C9 counterexample: starting already fully zoomed out
(`range = max_range = [0,10]`), a single ordinary frame with NO press and
NO release observed stops the movie loop — the boundary test of
x11plot.h:2717-2720 terminates it, so release of the movie control is not
the only stopping condition. -/
theorem movie_stops_at_boundary_counterexample :
    (runMovie true [⟨[], false, 2⟩] stateRound).1 = MovieOutcome.stoppedAtBoundary ∧
    ((⟨[], false, 2⟩ : FrameInput)).presses.any id = false := by
  constructor
  · norm_num [runMovie, movieFrame, movieMove, movieInterior, range_jump,
      set_range, stateRound, Axes.get, Axes.set, dne]
  · rfl

theorem movieFrame_release_cause (right : Bool) (inp : FrameInput) (s : GraphState)
    (h : (movieFrame right inp s).1 = MovieOutcome.stoppedByRelease) :
    inp.presses.any id = true := by
  unfold movieFrame at h
  split at h
  · assumption
  · split at h
    · simp at h
    · split at h
      · simp at h
      · simp at h

theorem movieFrame_boundary_cause (right : Bool) (inp : FrameInput) (s : GraphState)
    (h : (movieFrame right inp s).1 = MovieOutcome.stoppedAtBoundary) :
    ¬ movieInterior (movieFrame right inp s).2 := by
  unfold movieFrame at h ⊢
  split at h
  · simp at h
  · split at h
    · simp at h
    · split at h
      · simp at h
      · rw [if_neg (by assumption), if_neg (by assumption), if_neg (by assumption)]
        assumption

/-- C9 amended: the movie loop stops only for one of two reasons — the
matching movie radio's release fired during the once-per-frame poll, or the
scrolled range left the strict interior of `max_range` (the boundary test of
x11plot.h:2717); there is no timeout or other stopping condition. -/
theorem movie_stop_causes (right : Bool) (inps : List FrameInput) (s : GraphState)
    (h : (runMovie right inps s).1 ≠ MovieOutcome.running) :
    (∃ inp ∈ inps, inp.presses.any id = true) ∨
      ¬ movieInterior (runMovie right inps s).2 := by
  induction inps generalizing s with
  | nil => exact absurd rfl h
  | cons inp rest ih =>
      rcases hmf : movieFrame right inp s with ⟨o, s'⟩
      cases o with
      | running =>
          have hrw : runMovie right (inp :: rest) s = runMovie right rest s' := by
            conv_lhs => unfold runMovie
            rw [hmf]
          rw [hrw] at h ⊢
          rcases ih s' h with ⟨i, hi, hpr⟩ | hb
          · exact Or.inl ⟨i, List.mem_cons_of_mem _ hi, hpr⟩
          · exact Or.inr hb
      | stoppedByRelease =>
          have hpr : inp.presses.any id = true :=
            movieFrame_release_cause right inp s (by rw [hmf])
          exact Or.inl ⟨inp, List.mem_cons_self _ _, hpr⟩
      | stoppedAtBoundary =>
          have hrw : runMovie right (inp :: rest) s =
              (MovieOutcome.stoppedAtBoundary, s') := by
            conv_lhs => unfold runMovie
            rw [hmf]
          have hb := movieFrame_boundary_cause right inp s (by rw [hmf])
          rw [hrw]
          rw [hmf] at hb
          exact Or.inr hb

/-- Witness for the amended C9 at the concrete boundary-stopping run. -/
theorem movie_stop_causes_witness :
    (∃ inp ∈ [(⟨[], false, 2⟩ : FrameInput)], inp.presses.any id = true) ∨
      ¬ movieInterior (runMovie true [⟨[], false, 2⟩] stateRound).2 :=
  movie_stop_causes true [⟨[], false, 2⟩] stateRound
    (by
      have hx : (runMovie true [⟨[], false, 2⟩] stateRound).1 =
          MovieOutcome.stoppedAtBoundary := by
        norm_num [runMovie, movieFrame, movieMove, movieInterior, range_jump,
          set_range, stateRound, Axes.get, Axes.set, dne]
      rw [hx]
      simp)

/-- Here `std::shuffle` is standard-library code, not part of this repository; the
standard only requires that it permute the elements using values drawn from
the random engine.  It is modelled by contract: `picks` is the stream of
values produced by the seeded `mt19937_64` engine, and each step selects the
element at `pick mod remaining-length`, so every possible draw sequence is
covered. -/
def shuffleModel {α : Type} : List ℕ → List α → List α
  | _, [] => []
  | [], l => l
  | p :: ps, a :: l =>
    (a :: l).getD (p % (a :: l).length) a ::
      shuffleModel ps ((a :: l).eraseIdx (p % (a :: l).length))
termination_by ps l => l.length
decreasing_by
  have h : p % (a :: l).length < (a :: l).length := Nat.mod_lt _ (by simp)
  rw [List.length_eraseIdx, if_pos h]
  simp

/-- The file-reading loop of `randomize_order.cpp` (lines 36-45): read each
argument's lines in order into one list, failing (throwing) at the first
file that cannot be opened (`none`). -/
def readAll : List (Option (List String)) → Option (List String)
  | [] => some []
  | none :: _ => none
  | some f :: rest => (readAll rest).map (fun d => f ++ d)

/-- Embeds `main` of `randomize_order.cpp` (lines 32-58) over the observable file
contents: with no file arguments it throws the usage `Error`, which the
handler turns into exit status 1 with no lines written to standard output;
otherwise it reads every file (exit 1 at the first open failure), shuffles
the collected lines and writes them out. -/
def randomize_order_main (files : List (Option (List String))) (picks : List ℕ) :
    Except ℕ (List String) :=
  if files = [] then Except.error 1
  else
    match readAll files with
    | none => Except.error 1
    | some data => Except.ok (shuffleModel picks data)

theorem getD_cons_eraseIdx_perm {α : Type} (l : List α) (i : ℕ) (d : α)
    (h : i < l.length) : (l.getD i d :: l.eraseIdx i).Perm l := by
  induction l generalizing i with
  | nil => simp at h
  | cons a t ih =>
      cases i with
      | zero => simp
      | succ j =>
          have hj : j < t.length := by simpa using h
          have h1 : ((a :: t).getD (j + 1) d :: (a :: t).eraseIdx (j + 1)) =
              t.getD j d :: a :: t.eraseIdx j := by simp [List.eraseIdx]
          rw [h1]
          exact List.Perm.trans (List.Perm.swap a (t.getD j d) (t.eraseIdx j))
            (List.Perm.cons a (ih j hj))

theorem shuffleModel_perm_aux {α : Type} (n : ℕ) :
    ∀ (picks : List ℕ) (data : List α), data.length ≤ n →
      (shuffleModel picks data).Perm data := by
  induction n with
  | zero =>
      intro picks data h
      have hnil : data = [] := List.length_eq_zero.mp (Nat.le_zero.mp h)
      subst hnil
      cases picks <;> simp [shuffleModel]
  | succ n ih =>
      intro picks data h
      cases data with
      | nil => cases picks <;> simp [shuffleModel]
      | cons a l =>
          cases picks with
          | nil => simp [shuffleModel]
          | cons p ps =>
              rw [shuffleModel]
              have hlen : p % (a :: l).length < (a :: l).length :=
                Nat.mod_lt _ (by simp)
              have herase : ((a :: l).eraseIdx (p % (a :: l).length)).length ≤ n := by
                rw [List.length_eraseIdx, if_pos hlen]
                simpa using h
              exact List.Perm.trans
                (List.Perm.cons _ (ih ps _ herase))
                (getD_cons_eraseIdx_perm _ _ _ hlen)

theorem shuffleModel_perm {α : Type} (picks : List ℕ) (data : List α) :
    (shuffleModel picks data).Perm data :=
  shuffleModel_perm_aux data.length picks data (le_refl _)

/-- C10: with no file arguments `randomize_order` exits with status 1 and
writes no lines; when every given file opens, for every draw sequence of the
random engine the written lines are a permutation of the concatenation of
all input lines — the output multiset equals the input multiset. -/
theorem randomize_order_permutes (files : List (Option (List String)))
    (picks : List ℕ) (data : List String)
    (hne : files ≠ []) (hread : readAll files = some data) :
    (randomize_order_main [] picks = Except.error 1) ∧
    ∃ out, randomize_order_main files picks = Except.ok out ∧ out.Perm data := by
  refine ⟨rfl, shuffleModel picks data, ?_, shuffleModel_perm picks data⟩
  unfold randomize_order_main
  rw [if_neg hne, hread]

/-- Witness for C10: two files holding lines `a, b` and `c`, one concrete
draw sequence. -/
theorem randomize_order_permutes_witness :
    (randomize_order_main [] [1, 0] = Except.error 1) ∧
    ∃ out, randomize_order_main [some ["a", "b"], some ["c"]] [1, 0] = Except.ok out ∧
      out.Perm ["a", "b", "c"] :=
  randomize_order_permutes [some ["a", "b"], some ["c"]] [1, 0] ["a", "b", "c"]
    (by simp) (by simp [readAll])

end X11Plot
